import Mathlib

/-!
Verification of the BigBlueButton tablet screen-sharing core.

The definitions below are a shallow embedding of the Swift sources:
* `src/ios/ScreenSharing/PixelBufferSerialization.swift` (frame codec),
* `src/ios/InterProcessCommunication/IPCFileManager.swift` (shared mailbox),
* `ScreenSharePublisher.swift` (host-side poller),
* `ScreenBroadcaster.swift` / `ScreenShareWebRTCClient.swift` (signaling client
  and connection supervisor),
* `SampleHandler.swift` (capture-process watchdog).

Bytes are modelled as natural numbers below 256, `Data` as `List Nat`,
machine integers as `Nat`/`Int` with explicit bounds where they matter.
-/

set_option maxRecDepth 4096

/-! ## Byte-level primitives (little-endian, matching Apple native endianness) -/

/-- Little-endian 4-byte encoding of a 32-bit value (`Data(bytes:&tmp,...)`
on a `UInt32` field, native little-endian). -/
def le32 (n : Nat) : List Nat :=
  [n % 256, n / 256 % 256, n / 65536 % 256, n / 16777216 % 256]

/-- Little-endian 8-byte encoding of a 64-bit natural value. -/
def le64n (n : Nat) : List Nat :=
  [n % 256, n / 256 % 256, n / 65536 % 256, n / 16777216 % 256,
   n / 4294967296 % 256, n / 1099511627776 % 256,
   n / 281474976710656 % 256, n / 72057594037927936 % 256]

/-- Two's-complement little-endian encoding of the `Int64` timestamp field. -/
def tsToBytes (t : Int) : List Nat :=
  le64n ((t % 18446744073709551616).toNat)

/-- Value of four little-endian bytes as a 32-bit natural. -/
def readLE32b (a b c d : Nat) : Nat :=
  a + 256 * b + 65536 * c + 16777216 * d

/-- Reads the first four bytes of a list as a little-endian 32-bit value
(the `copyBytes` + `UInt32(littleEndian:)` idiom; callers guarantee four
bytes are present). -/
def readLE32 : List Nat → Nat
  | a :: b :: c :: d :: _ => readLE32b a b c d
  | _ => 0

/-- Decodes eight little-endian bytes as a two's-complement `Int64`
(the `memcpy` into the `Int64` field of `PixelHeader`). -/
def decodeTsBytes : List Nat → Int
  | b0 :: b1 :: b2 :: b3 :: b4 :: b5 :: b6 :: b7 :: _ =>
      let n := b0 + 256 * b1 + 65536 * b2 + 16777216 * b3 +
        4294967296 * b4 + 1099511627776 * b5 +
        281474976710656 * b6 + 72057594037927936 * b7
      if n < 9223372036854775808 then (n : Int) else (n : Int) - 18446744073709551616
  | _ => 0

/-! ## PixelHeader (PixelBufferSerialization.swift) -/

/-- Binary header of a serialized frame: `Int64 timestampNs` followed by seven
`UInt32` fields, 36 bytes total (`PixelHeader` in the Swift source). -/
structure PixelHeader where
  timestampNs : Int
  width : Nat
  height : Nat
  pixelFormat : Nat
  bytesPerRow : Nat
  dataSize : Nat
  orientation : Nat
  cookie : Nat
deriving DecidableEq, Repr

/-- Size in bytes of the encoded header (`7 * 4 + 8` in the source). -/
def PixelHeader.size : Nat := 36

/-- Native-endian (little-endian) byte image of a header
(`PixelHeader.encode`, a `memcpy` of the struct). -/
def PixelHeader.encode (h : PixelHeader) : List Nat :=
  tsToBytes h.timestampNs ++ le32 h.width ++ le32 h.height ++
    le32 h.pixelFormat ++ le32 h.bytesPerRow ++ le32 h.dataSize ++
    le32 h.orientation ++ le32 h.cookie

/-- Decodes a header from raw bytes; `none` when fewer than 36 bytes are
given (`PixelHeader.decode`, which guards `data.count >= PixelHeader.size`
and then `memcpy`s the fields). -/
def decodeHeader : List Nat → Option PixelHeader
  | t0 :: t1 :: t2 :: t3 :: t4 :: t5 :: t6 :: t7 ::
    w0 :: w1 :: w2 :: w3 :: h0 :: h1 :: h2 :: h3 ::
    p0 :: p1 :: p2 :: p3 :: r0 :: r1 :: r2 :: r3 ::
    d0 :: d1 :: d2 :: d3 :: o0 :: o1 :: o2 :: o3 ::
    c0 :: c1 :: c2 :: c3 :: _ =>
      some { timestampNs := decodeTsBytes [t0, t1, t2, t3, t4, t5, t6, t7]
             width := readLE32b w0 w1 w2 w3
             height := readLE32b h0 h1 h2 h3
             pixelFormat := readLE32b p0 p1 p2 p3
             bytesPerRow := readLE32b r0 r1 r2 r3
             dataSize := readLE32b d0 d1 d2 d3
             orientation := readLE32b o0 o1 o2 o3
             cookie := readLE32b c0 c1 c2 c3 }
  | _ => none

/-! ## Pixel buffers and the serialized frame format -/

/-- Model of a single-plane `CVPixelBuffer`: its geometry attributes and its
raw bytes (`CVPixelBufferGetDataSize` many, starting at the base address). -/
structure PixelBuffer where
  width : Nat
  height : Nat
  pixelFormat : Nat
  bytesPerRow : Nat
  data : List Nat
deriving DecidableEq, Repr

/-- ASCII bytes of the `"BBB"` sanity prefix (`kPrefix` in the source). -/
def kPrefixBytes : List Nat := [66, 66, 66]

/-- Header built from a live buffer (`PixelHeader.init(timestampNs:buffer:orientation:cookie:)`);
`dataSize` is the buffer's byte count, the cookie is drawn randomly in the
source (`random(in: 1...9000)`) and is a parameter here. -/
def headerOfBuffer (pb : PixelBuffer) (orientation : Nat) (timestampNs : Int)
    (cookie : Nat) : PixelHeader :=
  { timestampNs := timestampNs
    width := pb.width
    height := pb.height
    pixelFormat := pb.pixelFormat
    bytesPerRow := pb.bytesPerRow
    dataSize := pb.data.length
    orientation := orientation
    cookie := cookie }

/-- Serializes a pixel buffer: `"BBB"` prefix, 36-byte header, raw pixel
bytes, 4-byte little-endian cookie trailer (`serializePixelBufferFull`).
The source's `nil` branch (a NULL base address on a locked buffer) cannot
arise for the buffers modelled here, whose bytes are always available. -/
def serializePixelBufferFull (pb : PixelBuffer) (orientation : Nat)
    (timestampNs : Int) (cookie : Nat) : List Nat :=
  kPrefixBytes ++ (headerOfBuffer pb orientation timestampNs cookie).encode ++
    pb.data ++ le32 cookie

/-- Error classification of `deserializePixelBufferFull`
(`PBDeserializationError` in the source). -/
inductive PBDeserializationError where
  | prefixMissing
  | headerTooShort
  | invalidHeader
  | inconsistentStride
  | sizeMismatch (expected got : Nat)
  | cookieMismatch (expected got : Nat)
  | pixelBufferCreateFailed
  | baseAddressUnavailable
deriving DecidableEq, Repr

/-- Result of a successful deserialization: reconstructed buffer, decoded
orientation, and the decoded header. -/
structure DecodedFrame where
  buffer : PixelBuffer
  orientation : Nat
  header : PixelHeader
deriving DecidableEq, Repr

/-- Rotation fallback of `CGImagePropertyOrientation(rawValue:) ?? .up`:
raw values 1 through 8 are the valid orientations, anything else becomes
`.up` (raw value 1). -/
def decodeOrientation (n : Nat) : Nat :=
  if 1 ≤ n ∧ n ≤ 8 then n else 1

/-- Deserializes a frame, mirroring `deserializePixelBufferFull` guard by
guard: prefix, header length, header decode, declared-size bound, cookie
trailer, then buffer reconstruction.  `CVPixelBufferCreate` is modelled as
succeeding with the requested geometry; the model takes the allocated
buffer's stride to be the header's `bytesPerRow`, which is the layout the
raw byte copy in the source assumes. -/
def deserializePixelBufferFull (data : List Nat) :
    Except PBDeserializationError DecodedFrame :=
  if data.take 3 = kPrefixBytes then
    if 39 ≤ data.length then
      match decodeHeader ((data.drop 3).take 36) with
      | none => .error .invalidHeader
      | some header =>
        if 39 + header.dataSize + 4 ≤ data.length then
          let trailerCookie := readLE32 ((data.drop (39 + header.dataSize)).take 4)
          if trailerCookie = header.cookie then
            .ok { buffer := { width := header.width
                              height := header.height
                              pixelFormat := header.pixelFormat
                              bytesPerRow := header.bytesPerRow
                              data := (data.drop 39).take header.dataSize }
                  orientation := decodeOrientation header.orientation
                  header := header }
          else .error (.cookieMismatch header.cookie trailerCookie)
        else .error (.sizeMismatch (39 + header.dataSize + 4) data.length)
    else .error .headerTooShort
  else .error .prefixMissing

/-! ## Shared mailbox (IPCFileManager.swift)

The memory-mapped file of `size` bytes is modelled as a `List Nat` of that
length; `mapFile` (open + `ftruncate` + `mmap`) is modelled as succeeding —
its platform failure modes are reported as "no data" and are outside the
deterministic model. -/

namespace IPCFileManager

/-- Writes `data` at `offset` into the mapped region
(`IPCFileManager.write`): the guard `offset >= 0, offset + data.count <= size`
rejects the call with `false` leaving the region untouched; otherwise the
bytes are `memcpy`ed over the region and `true` is returned. -/
def write (region : List Nat) (data : List Nat) (offset : Int) :
    Bool × List Nat :=
  if 0 ≤ offset ∧ offset + data.length ≤ region.length then
    (true, region.take offset.toNat ++ data ++
      region.drop (offset.toNat + data.length))
  else
    (false, region)

/-- Reads `count` bytes at `offset` (`IPCFileManager.read`); `nil` when the
requested range falls outside the region. -/
def read (region : List Nat) (count : Nat) (offset : Int) :
    Option (List Nat) :=
  if 0 ≤ offset ∧ offset + count ≤ region.length then
    some ((region.drop offset.toNat).take count)
  else
    none

/-- Zero-fills the whole region (`IPCFileManager.clear`). -/
def clear (region : List Nat) : List Nat :=
  List.replicate region.length 0

/-- True when the first three bytes of the region are all zero
(`IPCFileManager.isClean`). -/
def isClean (region : List Nat) : Bool :=
  region.getD 0 0 = 0 && region.getD 1 0 = 0 && region.getD 2 0 = 0

end IPCFileManager

/-- Fixed capacity of the shared frame file:
`20 * 1024 * 1024` bytes (`IPCCurrentVideoFrame.fileSize`). -/
def ipcCapacity : Nat := 20971520

/-- Writes a frame into the shared region at `offset`
(`IPCCurrentVideoFrame.set`, which forwards to `IPCFileManager.write` with
the fixed 20 MiB size). -/
def IPCCurrentVideoFrame.set (region : List Nat) (data : List Nat)
    (offset : Int := 0) : Bool × List Nat :=
  IPCFileManager.write region data offset

/-- Reads the full shared region (`IPCCurrentVideoFrame.get()` with the
default `count == 0`, which reads `fileSize` bytes from offset 0). -/
def IPCCurrentVideoFrame.get (region : List Nat) : Option (List Nat) :=
  IPCFileManager.read region ipcCapacity 0

/-! ## Frame consumer / poller (ScreenSharePublisher.swift) -/

/-- Host-side poller state: the `broadcastActive` edge-detection flag and an
instrumentation counter of emitted `onBroadcastStarted` events. -/
structure PollerState where
  broadcastActive : Bool
  startEvents : Nat
deriving DecidableEq, Repr

/-- State after `ScreenSharePublisher.start()` resets the internal state
(`broadcastActive = false`; no event has fired yet). -/
def pollerStartState : PollerState := { broadcastActive := false, startEvents := 0 }

/-- One ~33 ms timer tick of the poller (the `setEventHandler` closure):
a failed `get()` does nothing; otherwise the clean flag of the observed
mailbox content drives the edge detection — a dirty observation with the
flag down raises it and emits the start event, a clean observation with the
flag up lowers it.  Decoding and frame forwarding (steps 4-6 of the source)
do not touch this state and are modelled by `pushVideoFrame` separately. -/
def pollerTick (s : PollerState) (m : Option (List Nat)) : PollerState :=
  match m with
  | none => s
  | some bytes =>
    let clean := IPCFileManager.isClean bytes
    if !clean && !s.broadcastActive then
      { broadcastActive := true, startEvents := s.startEvents + 1 }
    else if clean && s.broadcastActive then
      { s with broadcastActive := false }
    else s

/-- Runs the poller over a sequence of ticks; the `k`-th entry is the
mailbox content observed at tick `k` (`none` when `get()` failed). -/
def pollerRun (s : PollerState) (ms : List (Option (List Nat))) : PollerState :=
  ms.foldl pollerTick s

/-- Dirty-flags of the successfully observed mailbox contents of a trace,
in order; failed reads are skipped exactly as the tick handler skips them. -/
def observedDirty (ms : List (Option (List Nat))) : List Bool :=
  (ms.filterMap id).map (fun bytes => !IPCFileManager.isClean bytes)

/-- Number of clean-to-dirty transitions in a dirty-flag sequence, where
`prev` is the dirtiness before the first observation. -/
def risingEdges (prev : Bool) : List Bool → Nat
  | [] => 0
  | b :: rest => (if b && !prev then 1 else 0) + risingEdges b rest

/-! ## Signaling client and connection supervisor
(ScreenBroadcaster.swift, ScreenShareWebRTCClient.swift) -/

/-- Frame handed to the WebRTC track (`RTCVideoFrame`): wrapped buffer,
rotation in degrees, capture timestamp. -/
structure RTCVideoFrame where
  buffer : PixelBuffer
  rotation : Nat
  timeStampNs : Int
deriving DecidableEq, Repr

/-- Observable state of one `ScreenShareWebRTCClient`: the ratio latch, the
latched `adaptOutputFormat` resolution, the number of `adaptOutputFormat`
calls issued, and the frames pushed into the video source. -/
structure ClientState where
  isRatioDefined : Bool
  ratio : Option (Nat × Nat)
  adaptCalls : Nat
  pushedFrames : List RTCVideoFrame
deriving DecidableEq, Repr

/-- Freshly constructed client (`ScreenShareWebRTCClient.init(iceServers:)`):
ratio not defined, nothing pushed. -/
def freshClient : ClientState :=
  { isRatioDefined := false, ratio := none, adaptCalls := 0, pushedFrames := [] }

/-- State of the `ScreenBroadcasterService` supervisor: the `isConnected`
flag, the current client, a generation counter (bumped each time `reInit()`
replaces the client with a brand-new one) and the number of peer-connection
releases (`webRTCClient.close()` calls made by `disconnect()`). -/
structure ServiceState where
  isConnected : Bool
  client : ClientState
  generation : Nat
  released : Nat
deriving DecidableEq, Repr

/-- Rotation mapping of `pushVideoFrame`: orientation raw value 6 (right)
becomes 270 degrees, 8 (left) becomes 90 degrees, everything else 0. -/
def rotationOfOrientation (orientation : Nat) : Nat :=
  if orientation = 6 then 270 else if orientation = 8 then 90 else 0

/-- Pushes a captured frame (`ScreenBroadcasterService.pushVideoFrame`):
a no-op unless `isConnected`; otherwise latches the output ratio via
`setRatio` on the first accepted frame (the `getIsRatioDefined()` guard)
and hands an `RTCVideoFrame` to the client. -/
def pushVideoFrame (s : ServiceState) (timeStampNs : Int) (orientation : Nat)
    (imageBuffer : PixelBuffer) : ServiceState :=
  if !s.isConnected then s
  else
    let c := s.client
    let c := if !c.isRatioDefined then
        { c with isRatioDefined := true
                 ratio := some (imageBuffer.width, imageBuffer.height)
                 adaptCalls := c.adaptCalls + 1 }
      else c
    let frame : RTCVideoFrame :=
      { buffer := imageBuffer
        rotation := rotationOfOrientation orientation
        timeStampNs := timeStampNs }
    { s with client := { c with pushedFrames := c.pushedFrames ++ [frame] } }

/-- Frame input of one `pushVideoFrame` call. -/
structure FrameInput where
  timeStampNs : Int
  orientation : Nat
  buffer : PixelBuffer
deriving DecidableEq, Repr

/-- Pushes a sequence of frames through the service. -/
def pushMany (s : ServiceState) (fs : List FrameInput) : ServiceState :=
  fs.foldl (fun st f => pushVideoFrame st f.timeStampNs f.orientation f.buffer) s

/-- ICE connection states of `RTCIceConnectionState`. -/
inductive IceConnectionState where
  | new | checking | connected | completed | failed | disconnected | closed | count
deriving DecidableEq, Repr

/-- True on the states whose `didChangeIceConnectionState` case tears the
session down and rebuilds it (`case .disconnected, .failed, .closed`). -/
def IceConnectionState.qualifiesForRebuild : IceConnectionState → Bool
  | .disconnected | .failed | .closed => true
  | _ => false

/-- Events observed by the `ScreenBroadcasterService` supervisor.  The three
`Failed` events are the `catch` branches of `createOffer` /
`setRemoteSDP` / `addRemoteCandidate`, which log or return `false` without
touching the session; the gathering-state and local-candidate callbacks
only log or forward data. -/
inductive ServiceEvent where
  | iceStateChange (state : IceConnectionState)
  | signalingStateChange
  | iceGatheringStateChange
  | localCandidateDiscovered
  | offerFailed
  | setRemoteSDPFailed
  | addRemoteCandidateFailed
deriving DecidableEq, Repr

/-- True exactly on the events that trigger full session reconstruction. -/
def ServiceEvent.triggersRebuild : ServiceEvent → Bool
  | .iceStateChange state => state.qualifiesForRebuild
  | _ => false

/-- One supervisor step (the delegate callbacks of
`ScreenBroadcasterService`): a qualifying ICE state change clears
`isConnected`, runs `disconnect()` (which closes — releases — the peer
connection) and `reInit()` (which installs a brand-new client); any
signaling state change sets `isConnected` (the optimistic latch); every
other event leaves the state alone. -/
def serviceStep (st : ServiceState) (e : ServiceEvent) : ServiceState :=
  match e with
  | .iceStateChange state =>
      if state.qualifiesForRebuild then
        { isConnected := false
          client := freshClient
          generation := st.generation + 1
          released := st.released + 1 }
      else st
  | .signalingStateChange => { st with isConnected := true }
  | _ => st

/-! ## Capture-process watchdog (SampleHandler.swift) -/

/-- Shared cross-process control values (the app-group `UserDefaults`):
the stop-request flag and the host heartbeat timestamp in seconds
(0 when never written; time is modelled in whole seconds). -/
structure SharedDefaults where
  stopBroadcast : Bool
  mainAppHeartBeat : Int
deriving DecidableEq, Repr

/-- Outcome of one watchdog tick. -/
structure WatchdogTickResult where
  finishedGracefully : Bool
  sharedAfter : SharedDefaults
  timerCancelled : Bool
  staleDetected : Bool
deriving DecidableEq, Repr

/-- One 1 Hz tick of the stop-monitor timer installed by
`SampleHandler.broadcastStarted`: when the stop flag is set the broadcast is
finished gracefully, the flag is cleared and the timer cancelled; otherwise
the heartbeat is inspected — a timestamp older than 3 seconds reaches only
the diagnostic-log branch (the `finishBroadcastGracefully` call there is
commented out in the source) and nothing else happens. -/
def watchdogTick (shared : SharedDefaults) (now : Int) : WatchdogTickResult :=
  if shared.stopBroadcast then
    { finishedGracefully := true
      sharedAfter := { shared with stopBroadcast := false }
      timerCancelled := true
      staleDetected := false }
  else
    { finishedGracefully := false
      sharedAfter := shared
      timerCancelled := false
      staleDetected := 0 < shared.mainAppHeartBeat ∧ 3 < now - shared.mainAppHeartBeat }

/-! ## Codec lemmas -/

/-- Length of the encoded header is 36 bytes. -/
theorem PixelHeader.encode_length (h : PixelHeader) : h.encode.length = 36 := by
  simp [PixelHeader.encode, tsToBytes, le64n, le32]

/-- Reading back a little-endian 32-bit encoding recovers the value. -/
theorem readLE32_le32 (n : Nat) (hn : n < 4294967296) : readLE32 (le32 n) = n := by
  simp only [le32, readLE32, readLE32b]
  omega

/-- Decoding an encoded header recovers it, provided every field is in the
range of its machine type. -/
theorem decodeHeader_encode (h : PixelHeader)
    (hts₁ : -9223372036854775808 ≤ h.timestampNs)
    (hts₂ : h.timestampNs < 9223372036854775808)
    (hw : h.width < 4294967296) (hh : h.height < 4294967296)
    (hp : h.pixelFormat < 4294967296) (hr : h.bytesPerRow < 4294967296)
    (hd : h.dataSize < 4294967296) (ho : h.orientation < 4294967296)
    (hc : h.cookie < 4294967296) :
    decodeHeader h.encode = some h := by
  obtain ⟨t, w, hgt, pf, bpr, ds, ori, ck⟩ := h
  simp only at hts₁ hts₂ hw hh hp hr hd ho hc
  simp only [PixelHeader.encode, tsToBytes, le64n, le32, List.cons_append,
    List.nil_append, decodeHeader, decodeTsBytes, readLE32b,
    Option.some.injEq, PixelHeader.mk.injEq]
  refine ⟨?_, by omega, by omega, by omega, by omega, by omega, by omega, by omega⟩
  split <;> omega

/-- Central decomposition lemma: deserializing a byte sequence shaped like a
serialized frame — prefix, well-formed encoded header, payload of the
declared length, any 4-byte trailer, then arbitrary residual bytes — passes
every structural guard and is decided by the cookie comparison alone. -/
theorem deserialize_frame_shape (h : PixelHeader) (payload tr rest : List Nat)
    (hts₁ : -9223372036854775808 ≤ h.timestampNs)
    (hts₂ : h.timestampNs < 9223372036854775808)
    (hw : h.width < 4294967296) (hh : h.height < 4294967296)
    (hp : h.pixelFormat < 4294967296) (hr : h.bytesPerRow < 4294967296)
    (hd : h.dataSize < 4294967296) (ho : h.orientation < 4294967296)
    (hc : h.cookie < 4294967296)
    (hsz : h.dataSize = payload.length)
    (htr : tr.length = 4) :
    deserializePixelBufferFull (kPrefixBytes ++ h.encode ++ payload ++ (tr ++ rest)) =
      if readLE32 tr = h.cookie then
        .ok { buffer := { width := h.width, height := h.height,
                          pixelFormat := h.pixelFormat,
                          bytesPerRow := h.bytesPerRow, data := payload }
              orientation := decodeOrientation h.orientation
              header := h }
      else .error (.cookieMismatch h.cookie (readLE32 tr)) := by
  have hple : kPrefixBytes.length = 3 := rfl
  have henc : h.encode.length = 36 := h.encode_length
  have htake3 : (kPrefixBytes ++ (h.encode ++ (payload ++ (tr ++ rest)))).take 3
      = kPrefixBytes := List.take_left' hple
  have hlen : (kPrefixBytes ++ (h.encode ++ (payload ++ (tr ++ rest)))).length
      = 43 + payload.length + rest.length := by
    simp [List.length_append, henc, htr, hple]
    omega
  have hdrop3 : (kPrefixBytes ++ (h.encode ++ (payload ++ (tr ++ rest)))).drop 3
      = h.encode ++ (payload ++ (tr ++ rest)) := List.drop_left' hple
  have htake36 : (h.encode ++ (payload ++ (tr ++ rest))).take 36 = h.encode :=
    List.take_left' henc
  have hdec : decodeHeader h.encode = some h :=
    decodeHeader_encode h hts₁ hts₂ hw hh hp hr hd ho hc
  have hassoc39 : kPrefixBytes ++ (h.encode ++ (payload ++ (tr ++ rest)))
      = (kPrefixBytes ++ h.encode) ++ (payload ++ (tr ++ rest)) := by
    simp [List.append_assoc]
  have hdrop39 : (kPrefixBytes ++ (h.encode ++ (payload ++ (tr ++ rest)))).drop 39
      = payload ++ (tr ++ rest) := by
    rw [hassoc39]
    exact List.drop_left' (by simp only [List.length_append, hple, henc])
  have hassocTr : kPrefixBytes ++ (h.encode ++ (payload ++ (tr ++ rest)))
      = ((kPrefixBytes ++ h.encode) ++ payload) ++ (tr ++ rest) := by
    simp [List.append_assoc]
  have hdropTr : (kPrefixBytes ++ (h.encode ++ (payload ++ (tr ++ rest)))).drop
      (39 + payload.length) = tr ++ rest := by
    rw [hassocTr]
    exact List.drop_left' (by simp only [List.length_append, hple, henc])
  have htakeTr : (tr ++ rest).take 4 = tr := List.take_left' htr
  have htakePayload : (payload ++ (tr ++ rest)).take payload.length = payload :=
    List.take_left _ _
  unfold deserializePixelBufferFull
  simp only [List.append_assoc]
  rw [htake3, if_pos rfl, hlen, hdrop3, htake36, hdec,
    if_pos (show (39 : Nat) ≤ 43 + payload.length + rest.length by omega)]
  simp only [hsz, hdrop39, hdropTr, htakeTr, htakePayload,
    if_pos (show 39 + payload.length + 4 ≤ 43 + payload.length + rest.length by omega)]

/-! ## Claim theorems -/

/-- C1: for every valid single-plane pixel buffer, orientation, timestamp
(and cookie drawn by the serializer), deserializing the output of
`serializePixelBufferFull` succeeds and returns a buffer whose width,
height, pixel format, bytes-per-row and payload bytes equal those of the
input buffer, the input orientation, and a header whose `timestampNs`
equals the input timestamp. -/
theorem C1_serialize_roundtrip (pb : PixelBuffer) (o : Nat) (t : Int) (c : Nat)
    (hts₁ : -9223372036854775808 ≤ t) (hts₂ : t < 9223372036854775808)
    (hw : pb.width < 4294967296) (hh : pb.height < 4294967296)
    (hp : pb.pixelFormat < 4294967296) (hr : pb.bytesPerRow < 4294967296)
    (hd : pb.data.length < 4294967296)
    (ho₁ : 1 ≤ o) (ho₂ : o ≤ 8) (hc : c < 4294967296) :
    deserializePixelBufferFull (serializePixelBufferFull pb o t c) =
      .ok { buffer := { width := pb.width, height := pb.height,
                        pixelFormat := pb.pixelFormat,
                        bytesPerRow := pb.bytesPerRow, data := pb.data }
            orientation := o
            header := headerOfBuffer pb o t c } ∧
    (headerOfBuffer pb o t c).timestampNs = t := by
  refine ⟨?_, rfl⟩
  have hshape := deserialize_frame_shape (headerOfBuffer pb o t c) pb.data
    (le32 c) [] hts₁ hts₂ hw hh hp hr hd (by simp only [headerOfBuffer]; omega)
    hc rfl rfl
  rw [serializePixelBufferFull, ← List.append_nil (le32 c)]
  rw [hshape]
  rw [readLE32_le32 c hc]
  simp [headerOfBuffer, decodeOrientation, ho₁, ho₂]

/-- Witness for C1 at a concrete 2x1 BGRA buffer. -/
theorem C1_serialize_roundtrip_witness :
    deserializePixelBufferFull (serializePixelBufferFull
      ⟨2, 1, 1111970369, 8, [1, 2, 3, 4, 5, 6, 7, 8]⟩ 1 123 7) =
      .ok { buffer := ⟨2, 1, 1111970369, 8, [1, 2, 3, 4, 5, 6, 7, 8]⟩
            orientation := 1
            header := headerOfBuffer ⟨2, 1, 1111970369, 8, [1, 2, 3, 4, 5, 6, 7, 8]⟩ 1 123 7 } ∧
    (headerOfBuffer ⟨2, 1, 1111970369, 8, [1, 2, 3, 4, 5, 6, 7, 8]⟩ 1 123 7).timestampNs = 123 :=
  C1_serialize_roundtrip ⟨2, 1, 1111970369, 8, [1, 2, 3, 4, 5, 6, 7, 8]⟩ 1 123 7
    (by decide) (by decide) (by decide) (by decide) (by decide) (by decide)
    (by decide) (by decide) (by decide) (by decide)

/-- Setting an element past the first list of an append sets it in the second. -/
theorem list_set_append_right (l₁ l₂ : List Nat) (n : Nat) (a : Nat) :
    (l₁ ++ l₂).set (l₁.length + n) a = l₁ ++ l₂.set n a := by
  induction l₁ with
  | nil => simp
  | cons x xs ih => simp [Nat.succ_add, ih]

/-- Reading an element past the first list of an append reads the second. -/
theorem list_getD_append_right (l₁ l₂ : List Nat) (n : Nat) :
    (l₁ ++ l₂).getD (l₁.length + n) 0 = l₂.getD n 0 := by
  rw [List.getD_append_right _ _ _ _ (by omega)]
  congr 1
  omega

/-- A number is changed by flipping one of its bits. -/
theorem xor_two_pow_ne (b j : Nat) : b ^^^ 2 ^ j ≠ b := by
  intro hEq
  have h2 : b ^^^ (b ^^^ 2 ^ j) = b ^^^ b := by rw [hEq]
  rw [Nat.xor_cancel_left, Nat.xor_self] at h2
  exact (Nat.two_pow_pos j).ne' h2

/-- Flipping a bit of a byte yields a different byte. -/
theorem digit_flip_facts (d j : Nat) (hd : d < 256) (hj : j < 8) :
    d ^^^ 2 ^ j ≠ d ∧ d ^^^ 2 ^ j < 256 := by
  refine ⟨xor_two_pow_ne d j, ?_⟩
  have h1 : d < 2 ^ 8 := by omega
  have h2 : 2 ^ j < 2 ^ 8 := by
    have : 2 ^ j ≤ 2 ^ 7 := Nat.pow_le_pow_right (by omega) (by omega)
    omega
  have := Nat.xor_lt_two_pow h1 h2
  omega

/-- C2: flipping any single bit of the 4-byte trailer cookie of an
otherwise-valid serialized frame makes `deserializePixelBufferFull` fail
with the cookie-mismatch classification (expected the header cookie, got a
different trailer value); it never returns a decoded buffer.  The
trailer occupies offsets `39 + payload length` through `+ 3`; byte `i` of
it has bit `j` flipped. -/
theorem C2_trailer_bitflip (pb : PixelBuffer) (o : Nat) (t : Int) (c : Nat)
    (i j : Nat)
    (hts₁ : -9223372036854775808 ≤ t) (hts₂ : t < 9223372036854775808)
    (hw : pb.width < 4294967296) (hh : pb.height < 4294967296)
    (hp : pb.pixelFormat < 4294967296) (hr : pb.bytesPerRow < 4294967296)
    (hd : pb.data.length < 4294967296) (ho : o < 4294967296)
    (hc : c < 4294967296) (hi : i < 4) (hj : j < 8) :
    ∃ got, got ≠ c ∧
      deserializePixelBufferFull ((serializePixelBufferFull pb o t c).set
          (39 + pb.data.length + i)
          (((serializePixelBufferFull pb o t c).getD (39 + pb.data.length + i) 0) ^^^ 2 ^ j)) =
        .error (.cookieMismatch c got) := by
  have hfr : serializePixelBufferFull pb o t c =
      (kPrefixBytes ++ (headerOfBuffer pb o t c).encode ++ pb.data) ++ le32 c := by
    simp [serializePixelBufferFull, List.append_assoc]
  have hlenpre : (kPrefixBytes ++ (headerOfBuffer pb o t c).encode ++ pb.data).length
      = 39 + pb.data.length := by
    simp [List.length_append, PixelHeader.encode_length, kPrefixBytes]
    omega
  rw [hfr, show 39 + pb.data.length + i
      = (kPrefixBytes ++ (headerOfBuffer pb o t c).encode ++ pb.data).length + i
    from by rw [hlenpre]]
  rw [list_getD_append_right, list_set_append_right]
  have htrlen : ((le32 c).set i ((le32 c).getD i 0 ^^^ 2 ^ j)).length = 4 := by
    simp [le32]
  have hshape := deserialize_frame_shape (headerOfBuffer pb o t c) pb.data
    ((le32 c).set i ((le32 c).getD i 0 ^^^ 2 ^ j)) []
    hts₁ hts₂ hw hh hp hr hd (by simp only [headerOfBuffer]; omega) hc rfl htrlen
  rw [List.append_nil] at hshape
  rw [show (kPrefixBytes ++ (headerOfBuffer pb o t c).encode ++ pb.data) ++
        (le32 c).set i ((le32 c).getD i 0 ^^^ 2 ^ j)
      = kPrefixBytes ++ (headerOfBuffer pb o t c).encode ++ pb.data ++
        (le32 c).set i ((le32 c).getD i 0 ^^^ 2 ^ j) from by simp [List.append_assoc]]
  rw [hshape]
  have hgot : readLE32 ((le32 c).set i ((le32 c).getD i 0 ^^^ 2 ^ j)) ≠ c := by
    interval_cases i
    · obtain ⟨hne, hlt⟩ := digit_flip_facts (c % 256) j (by omega) hj
      rw [show (le32 c).set 0 ((le32 c).getD 0 0 ^^^ 2 ^ j)
          = [c % 256 ^^^ 2 ^ j, c / 256 % 256, c / 65536 % 256, c / 16777216 % 256] from rfl]
      simp only [readLE32, readLE32b]
      omega
    · obtain ⟨hne, hlt⟩ := digit_flip_facts (c / 256 % 256) j (by omega) hj
      rw [show (le32 c).set 1 ((le32 c).getD 1 0 ^^^ 2 ^ j)
          = [c % 256, c / 256 % 256 ^^^ 2 ^ j, c / 65536 % 256, c / 16777216 % 256] from rfl]
      simp only [readLE32, readLE32b]
      omega
    · obtain ⟨hne, hlt⟩ := digit_flip_facts (c / 65536 % 256) j (by omega) hj
      rw [show (le32 c).set 2 ((le32 c).getD 2 0 ^^^ 2 ^ j)
          = [c % 256, c / 256 % 256, c / 65536 % 256 ^^^ 2 ^ j, c / 16777216 % 256] from rfl]
      simp only [readLE32, readLE32b]
      omega
    · obtain ⟨hne, hlt⟩ := digit_flip_facts (c / 16777216 % 256) j (by omega) hj
      rw [show (le32 c).set 3 ((le32 c).getD 3 0 ^^^ 2 ^ j)
          = [c % 256, c / 256 % 256, c / 65536 % 256, c / 16777216 % 256 ^^^ 2 ^ j] from rfl]
      simp only [readLE32, readLE32b]
      omega
  simp only [headerOfBuffer]
  rw [if_neg hgot]
  exact ⟨_, hgot, rfl⟩

/-- Witness for C2: flipping bit 0 of trailer byte 0 of a concrete frame. -/
theorem C2_trailer_bitflip_witness :
    ∃ got, got ≠ 7 ∧
      deserializePixelBufferFull ((serializePixelBufferFull
          ⟨2, 1, 1111970369, 8, [1, 2, 3, 4, 5, 6, 7, 8]⟩ 1 123 7).set
          (39 + ([1, 2, 3, 4, 5, 6, 7, 8] : List Nat).length + 0)
          (((serializePixelBufferFull ⟨2, 1, 1111970369, 8, [1, 2, 3, 4, 5, 6, 7, 8]⟩
              1 123 7).getD (39 + ([1, 2, 3, 4, 5, 6, 7, 8] : List Nat).length + 0) 0) ^^^ 2 ^ 0)) =
        .error (.cookieMismatch 7 got) :=
  C2_trailer_bitflip ⟨2, 1, 1111970369, 8, [1, 2, 3, 4, 5, 6, 7, 8]⟩ 1 123 7 0 0
    (by decide) (by decide) (by decide) (by decide) (by decide) (by decide)
    (by decide) (by decide) (by decide) (by decide) (by decide)

/-- Counterexample to C3 as stated: truncating a valid serialized frame to
2 bytes is below tag+header size, yet `deserializePixelBufferFull` fails
with the tag-missing (prefix-missing) classification, not header-too-short. -/
theorem C3_truncation_counterexample :
    deserializePixelBufferFull ((serializePixelBufferFull
        ⟨1, 1, 32, 4, [9, 9, 9, 9]⟩ 1 0 7).take 2) = .error .prefixMissing ∧
    PBDeserializationError.prefixMissing ≠ PBDeserializationError.headerTooShort := by
  exact ⟨rfl, by decide⟩

/-- C3 (amended): truncating a valid serialized frame to a length strictly
below the full length fails as follows — below the 3-byte tag the
tag-missing (prefix-missing) error is raised; from the tag size up to but
excluding tag+header size (39 bytes) the header-too-short error; from
tag+header size up to but excluding the full length the size-mismatch
error.  The original claim assigned header-too-short to the whole range
below tag+header size; lengths below the tag size actually fail the tag
check first. -/
theorem C3_truncation_amended (pb : PixelBuffer) (o : Nat) (t : Int) (c : Nat)
    (L : Nat)
    (hts₁ : -9223372036854775808 ≤ t) (hts₂ : t < 9223372036854775808)
    (hw : pb.width < 4294967296) (hh : pb.height < 4294967296)
    (hp : pb.pixelFormat < 4294967296) (hr : pb.bytesPerRow < 4294967296)
    (hd : pb.data.length < 4294967296) (ho : o < 4294967296)
    (hc : c < 4294967296) (hL : L < 43 + pb.data.length) :
    deserializePixelBufferFull ((serializePixelBufferFull pb o t c).take L) =
      if L < 3 then .error .prefixMissing
      else if L < 39 then .error .headerTooShort
      else .error (.sizeMismatch (43 + pb.data.length) L) := by
  have hfrlen : (serializePixelBufferFull pb o t c).length = 43 + pb.data.length := by
    simp [serializePixelBufferFull, PixelHeader.encode_length, le32, kPrefixBytes]
    omega
  have hLlen : ((serializePixelBufferFull pb o t c).take L).length = L := by
    simp [List.length_take, hfrlen]
    omega
  by_cases h3 : L < 3
  · rw [if_pos h3]
    have hne : ((serializePixelBufferFull pb o t c).take L).take 3 ≠ kPrefixBytes := by
      intro hEq
      have hlen3 := congrArg List.length hEq
      simp [List.length_take, hLlen, kPrefixBytes] at hlen3
      omega
    unfold deserializePixelBufferFull
    rw [if_neg hne]
  · have htake3 : ((serializePixelBufferFull pb o t c).take L).take 3 = kPrefixBytes := by
      rw [List.take_take, show min 3 L = 3 from by omega]
      simp only [serializePixelBufferFull, List.append_assoc]
      exact List.take_left' rfl
    by_cases h39 : L < 39
    · rw [if_neg h3, if_pos h39]
      unfold deserializePixelBufferFull
      rw [htake3, if_pos rfl, hLlen, if_neg (by omega)]
    · rw [if_neg h3, if_neg h39]
      have hdrop3 : ((serializePixelBufferFull pb o t c).take L).drop 3
          = ((serializePixelBufferFull pb o t c).drop 3).take (L - 3) :=
        List.drop_take L 3 _
      have hdropfr : (serializePixelBufferFull pb o t c).drop 3
          = (headerOfBuffer pb o t c).encode ++ (pb.data ++ le32 c) := by
        simp only [serializePixelBufferFull, List.append_assoc]
        exact List.drop_left' rfl
      have htake36 : (((serializePixelBufferFull pb o t c).take L).drop 3).take 36
          = (headerOfBuffer pb o t c).encode := by
        rw [hdrop3, List.take_take, show min 36 (L - 3) = 36 from by omega, hdropfr]
        exact List.take_left' (headerOfBuffer pb o t c).encode_length
      have hdec : decodeHeader ((headerOfBuffer pb o t c).encode)
          = some (headerOfBuffer pb o t c) :=
        decodeHeader_encode _ hts₁ hts₂ hw hh hp hr hd
          (by simp only [headerOfBuffer]; omega) hc
      unfold deserializePixelBufferFull
      rw [htake3, if_pos rfl, hLlen, if_pos (by omega), htake36, hdec]
      simp only [headerOfBuffer]
      rw [if_neg (by omega : ¬ (39 + pb.data.length + 4 ≤ L))]
      rw [show 39 + pb.data.length + 4 = 43 + pb.data.length from by omega]

/-- Witness for the amended C3 at a concrete frame truncated mid-payload. -/
theorem C3_truncation_amended_witness :
    deserializePixelBufferFull ((serializePixelBufferFull
        ⟨1, 1, 32, 4, [9, 9, 9, 9]⟩ 1 0 7).take 40) =
      if 40 < 3 then .error .prefixMissing
      else if 40 < 39 then .error .headerTooShort
      else .error (.sizeMismatch (43 + ([9, 9, 9, 9] : List Nat).length) 40) :=
  C3_truncation_amended ⟨1, 1, 32, 4, [9, 9, 9, 9]⟩ 1 0 7 40
    (by decide) (by decide) (by decide) (by decide) (by decide) (by decide)
    (by decide) (by decide) (by decide) (by decide)

/-- A full-overwrite mailbox write at offset 0 succeeds when the data fits,
and replaces the leading bytes of the region. -/
theorem IPCFileManager.write_zero (region data : List Nat)
    (h : data.length ≤ region.length) :
    IPCFileManager.write region data 0 = (true, data ++ region.drop data.length) := by
  unfold IPCFileManager.write
  rw [if_pos ⟨le_refl 0, by omega⟩]
  simp

/-- C4: writing a serialized frame A at offset 0, then a strictly shorter
serialized frame B at offset 0, then reading the region back, deserializes
to exactly B's header fields and B's payload bytes; the residual bytes of A
beyond B's declared extent are not interpreted as part of B. -/
theorem C4_overwrite_smaller (pbA pbB : PixelBuffer) (oA oB : Nat)
    (tA tB : Int) (cA cB : Nat) (region : List Nat)
    (htsB₁ : -9223372036854775808 ≤ tB) (htsB₂ : tB < 9223372036854775808)
    (hwB : pbB.width < 4294967296) (hhB : pbB.height < 4294967296)
    (hpB : pbB.pixelFormat < 4294967296) (hrB : pbB.bytesPerRow < 4294967296)
    (hdB : pbB.data.length < 4294967296)
    (hoB₁ : 1 ≤ oB) (hoB₂ : oB ≤ 8) (hcB : cB < 4294967296)
    (hreg : region.length = ipcCapacity)
    (hAcap : 43 + pbA.data.length ≤ ipcCapacity)
    (hBA : pbB.data.length < pbA.data.length) :
    (IPCCurrentVideoFrame.set region (serializePixelBufferFull pbA oA tA cA)).1 = true ∧
    (IPCCurrentVideoFrame.set
        (IPCCurrentVideoFrame.set region (serializePixelBufferFull pbA oA tA cA)).2
        (serializePixelBufferFull pbB oB tB cB)).1 = true ∧
    ∃ R, IPCCurrentVideoFrame.get
          (IPCCurrentVideoFrame.set
            (IPCCurrentVideoFrame.set region (serializePixelBufferFull pbA oA tA cA)).2
            (serializePixelBufferFull pbB oB tB cB)).2 = some R ∧
      deserializePixelBufferFull R =
        .ok { buffer := { width := pbB.width, height := pbB.height,
                          pixelFormat := pbB.pixelFormat,
                          bytesPerRow := pbB.bytesPerRow, data := pbB.data }
              orientation := oB
              header := headerOfBuffer pbB oB tB cB } := by
  have hlenA : (serializePixelBufferFull pbA oA tA cA).length = 43 + pbA.data.length := by
    simp [serializePixelBufferFull, PixelHeader.encode_length, le32, kPrefixBytes]
    omega
  have hlenB : (serializePixelBufferFull pbB oB tB cB).length = 43 + pbB.data.length := by
    simp [serializePixelBufferFull, PixelHeader.encode_length, le32, kPrefixBytes]
    omega
  have hwrA := IPCFileManager.write_zero region (serializePixelBufferFull pbA oA tA cA)
    (by omega)
  have hlen₁ : (serializePixelBufferFull pbA oA tA cA ++
      region.drop (serializePixelBufferFull pbA oA tA cA).length).length
      = region.length := by
    simp [List.length_append, List.length_drop]
    omega
  have hwrB := IPCFileManager.write_zero
    (serializePixelBufferFull pbA oA tA cA ++
      region.drop (serializePixelBufferFull pbA oA tA cA).length)
    (serializePixelBufferFull pbB oB tB cB)
    (by omega)
  simp only [IPCCurrentVideoFrame.set, hwrA, hwrB]
  refine ⟨trivial, trivial, ?_⟩
  set suffix := (serializePixelBufferFull pbA oA tA cA ++
      region.drop (serializePixelBufferFull pbA oA tA cA).length).drop
      (serializePixelBufferFull pbB oB tB cB).length with hsfx
  have hlen₂ : (serializePixelBufferFull pbB oB tB cB ++ suffix).length
      = region.length := by
    simp [hsfx, List.length_append, List.length_drop]
    omega
  refine ⟨serializePixelBufferFull pbB oB tB cB ++ suffix, ?_, ?_⟩
  · unfold IPCCurrentVideoFrame.get IPCFileManager.read
    rw [if_pos ⟨le_refl 0, by omega⟩]
    simp only [Int.toNat_zero, List.drop_zero]
    rw [show ipcCapacity = (serializePixelBufferFull pbB oB tB cB ++ suffix).length
      from by omega]
    rw [List.take_length]
  · have hshape := deserialize_frame_shape (headerOfBuffer pbB oB tB cB) pbB.data
      (le32 cB) suffix htsB₁ htsB₂ hwB hhB hpB hrB hdB
      (by simp only [headerOfBuffer]; omega) hcB rfl rfl
    rw [show serializePixelBufferFull pbB oB tB cB ++ suffix
        = kPrefixBytes ++ (headerOfBuffer pbB oB tB cB).encode ++ pbB.data ++
          (le32 cB ++ suffix) from by simp [serializePixelBufferFull, List.append_assoc]]
    rw [hshape, readLE32_le32 cB hcB]
    simp [headerOfBuffer, decodeOrientation, hoB₁, hoB₂]

/-- Witness for C4 with a concrete 8-byte frame A overwritten by a concrete
4-byte frame B on a zeroed 20 MiB region. -/
theorem C4_overwrite_smaller_witness :
    (IPCCurrentVideoFrame.set (List.replicate ipcCapacity 0)
        (serializePixelBufferFull ⟨2, 1, 1111970369, 8, [1, 2, 3, 4, 5, 6, 7, 8]⟩ 3 5 11)).1 = true ∧
    (IPCCurrentVideoFrame.set
        (IPCCurrentVideoFrame.set (List.replicate ipcCapacity 0)
          (serializePixelBufferFull ⟨2, 1, 1111970369, 8, [1, 2, 3, 4, 5, 6, 7, 8]⟩ 3 5 11)).2
        (serializePixelBufferFull ⟨1, 1, 1111970369, 4, [9, 8, 7, 6]⟩ 1 2 13)).1 = true ∧
    ∃ R, IPCCurrentVideoFrame.get
          (IPCCurrentVideoFrame.set
            (IPCCurrentVideoFrame.set (List.replicate ipcCapacity 0)
              (serializePixelBufferFull ⟨2, 1, 1111970369, 8, [1, 2, 3, 4, 5, 6, 7, 8]⟩ 3 5 11)).2
            (serializePixelBufferFull ⟨1, 1, 1111970369, 4, [9, 8, 7, 6]⟩ 1 2 13)).2 = some R ∧
      deserializePixelBufferFull R =
        .ok { buffer := { width := 1, height := 1, pixelFormat := 1111970369,
                          bytesPerRow := 4, data := [9, 8, 7, 6] }
              orientation := 1
              header := headerOfBuffer ⟨1, 1, 1111970369, 4, [9, 8, 7, 6]⟩ 1 2 13 } :=
  C4_overwrite_smaller ⟨2, 1, 1111970369, 8, [1, 2, 3, 4, 5, 6, 7, 8]⟩
    ⟨1, 1, 1111970369, 4, [9, 8, 7, 6]⟩ 3 1 5 2 11 13 (List.replicate ipcCapacity 0)
    (by decide) (by decide) (by decide) (by decide) (by decide) (by decide)
    (by decide) (by decide) (by decide) (by decide) (by simp) (by decide) (by decide)

/-- Unfolding of one poll tick at the head of a trace. -/
theorem pollerRun_cons (s : PollerState) (m : Option (List Nat))
    (ms : List (Option (List Nat))) :
    pollerRun s (m :: ms) = pollerRun (pollerTick s m) ms := rfl

/-- Invariant of the poll loop: the events counter advances by exactly the
number of clean-to-dirty transitions of the successfully observed mailbox
contents, with the `broadcastActive` flag as the previous-dirtiness state. -/
theorem pollerRun_startEvents (ms : List (Option (List Nat))) (a : Bool) (n : Nat) :
    (pollerRun ⟨a, n⟩ ms).startEvents = n + risingEdges a (observedDirty ms) := by
  induction ms generalizing a n with
  | nil => simp [pollerRun, observedDirty, risingEdges]
  | cons m rest ih =>
    cases m with
    | none =>
      rw [pollerRun_cons]
      simpa [pollerTick, observedDirty] using ih a n
    | some bytes =>
      rw [pollerRun_cons]
      by_cases hclean : IPCFileManager.isClean bytes <;> cases a <;>
        (simp [pollerTick, observedDirty, risingEdges, hclean, ih]; try omega)

/-- C5: after `ScreenSharePublisher.start()` (which clears the mailbox —
leaving it clean — and resets the active flag), the broadcast-started event
fires exactly once per clean-to-dirty transition of the observed mailbox
contents: none while the mailbox stays clean, no duplicates on consecutive
dirty polls, and firing again after a dirty-to-clean reset. -/
theorem C5_poller_edge_detection (prior : List Nat) (ms : List (Option (List Nat))) :
    IPCFileManager.isClean (IPCFileManager.clear prior) = true ∧
    (pollerRun pollerStartState ms).startEvents = risingEdges false (observedDirty ms) := by
  constructor
  · simp [IPCFileManager.clear, IPCFileManager.isClean]
  · simpa [pollerStartState] using pollerRun_startEvents ms false 0

/-- C6: a `pushVideoFrame` call while the service is not connected is a
complete no-op — the state (including the pushed-frame list and the
latched ratio flag) is unchanged and no error is produced. -/
theorem C6_push_ignored_when_not_connected (s : ServiceState) (t : Int)
    (o : Nat) (b : PixelBuffer) (h : s.isConnected = false) :
    pushVideoFrame s t o b = s ∧
    (pushVideoFrame s t o b).client.pushedFrames = s.client.pushedFrames ∧
    (pushVideoFrame s t o b).client.isRatioDefined = s.client.isRatioDefined := by
  have hs : pushVideoFrame s t o b = s := by simp [pushVideoFrame, h]
  exact ⟨hs, by rw [hs], by rw [hs]⟩

/-- Witness for C6 on a freshly initialized service. -/
theorem C6_push_ignored_when_not_connected_witness :
    pushVideoFrame ⟨false, freshClient, 0, 0⟩ 5 1 ⟨1, 1, 0, 4, [1, 2, 3, 4]⟩
      = ⟨false, freshClient, 0, 0⟩ ∧
    (pushVideoFrame ⟨false, freshClient, 0, 0⟩ 5 1 ⟨1, 1, 0, 4, [1, 2, 3, 4]⟩).client.pushedFrames
      = (⟨false, freshClient, 0, 0⟩ : ServiceState).client.pushedFrames ∧
    (pushVideoFrame ⟨false, freshClient, 0, 0⟩ 5 1 ⟨1, 1, 0, 4, [1, 2, 3, 4]⟩).client.isRatioDefined
      = (⟨false, freshClient, 0, 0⟩ : ServiceState).client.isRatioDefined :=
  C6_push_ignored_when_not_connected ⟨false, freshClient, 0, 0⟩ 5 1
    ⟨1, 1, 0, 4, [1, 2, 3, 4]⟩ rfl

/-- Unfolding of one push at the head of a frame sequence. -/
theorem pushMany_cons (s : ServiceState) (f : FrameInput) (fs : List FrameInput) :
    pushMany s (f :: fs) =
      pushMany (pushVideoFrame s f.timeStampNs f.orientation f.buffer) fs := rfl

/-- Once the ratio is latched, a push preserves the latch, the latched
resolution, and the number of adapt-output calls. -/
theorem pushVideoFrame_ratio_preserved (s : ServiceState) (t : Int) (o : Nat)
    (b : PixelBuffer) (h : s.client.isRatioDefined = true) :
    (pushVideoFrame s t o b).client.isRatioDefined = true ∧
    (pushVideoFrame s t o b).client.ratio = s.client.ratio ∧
    (pushVideoFrame s t o b).client.adaptCalls = s.client.adaptCalls := by
  by_cases hc : s.isConnected <;> simp [pushVideoFrame, hc, h]

/-- Once the ratio is latched, any further sequence of pushes preserves the
latch, the latched resolution, and the number of adapt-output calls. -/
theorem pushMany_ratio_preserved (fs : List FrameInput) (s : ServiceState)
    (h : s.client.isRatioDefined = true) :
    (pushMany s fs).client.isRatioDefined = true ∧
    (pushMany s fs).client.ratio = s.client.ratio ∧
    (pushMany s fs).client.adaptCalls = s.client.adaptCalls := by
  induction fs generalizing s with
  | nil => simp [pushMany, h]
  | cons g gs ih =>
    rw [pushMany_cons]
    have hstep := pushVideoFrame_ratio_preserved s g.timeStampNs g.orientation g.buffer h
    have hrec := ih (pushVideoFrame s g.timeStampNs g.orientation g.buffer) hstep.1
    exact ⟨hrec.1, hrec.2.1.trans hstep.2.1, hrec.2.2.trans hstep.2.2⟩

/-- C7: on a connected session whose ratio is not yet latched, the first
pushed frame latches the output resolution to that frame's dimensions and
issues exactly one adapt-output call; every later pushed frame of the
sequence leaves the latch, the resolution, and the adapt-call count
unchanged. -/
theorem C7_ratio_latched_once (s : ServiceState) (f : FrameInput)
    (fs : List FrameInput) (hconn : s.isConnected = true)
    (hnotdef : s.client.isRatioDefined = false) :
    (pushMany s (f :: fs)).client.isRatioDefined = true ∧
    (pushMany s (f :: fs)).client.ratio = some (f.buffer.width, f.buffer.height) ∧
    (pushMany s (f :: fs)).client.adaptCalls = s.client.adaptCalls + 1 := by
  rw [pushMany_cons]
  have h1 : (pushVideoFrame s f.timeStampNs f.orientation f.buffer).client.isRatioDefined
      = true := by simp [pushVideoFrame, hconn, hnotdef]
  have h2 : (pushVideoFrame s f.timeStampNs f.orientation f.buffer).client.ratio
      = some (f.buffer.width, f.buffer.height) := by simp [pushVideoFrame, hconn, hnotdef]
  have h3 : (pushVideoFrame s f.timeStampNs f.orientation f.buffer).client.adaptCalls
      = s.client.adaptCalls + 1 := by simp [pushVideoFrame, hconn, hnotdef]
  have hrest := pushMany_ratio_preserved fs
    (pushVideoFrame s f.timeStampNs f.orientation f.buffer) h1
  exact ⟨hrest.1, hrest.2.1.trans h2, hrest.2.2.trans h3⟩

/-- Witness for C7: two frames pushed on a connected fresh session. -/
theorem C7_ratio_latched_once_witness :
    (pushMany ⟨true, freshClient, 0, 0⟩
        [⟨1, 1, ⟨640, 480, 0, 2560, []⟩⟩, ⟨2, 6, ⟨1920, 1080, 0, 7680, []⟩⟩]).client.isRatioDefined
      = true ∧
    (pushMany ⟨true, freshClient, 0, 0⟩
        [⟨1, 1, ⟨640, 480, 0, 2560, []⟩⟩, ⟨2, 6, ⟨1920, 1080, 0, 7680, []⟩⟩]).client.ratio
      = some ((⟨1, 1, ⟨640, 480, 0, 2560, []⟩⟩ : FrameInput).buffer.width,
              (⟨1, 1, ⟨640, 480, 0, 2560, []⟩⟩ : FrameInput).buffer.height) ∧
    (pushMany ⟨true, freshClient, 0, 0⟩
        [⟨1, 1, ⟨640, 480, 0, 2560, []⟩⟩, ⟨2, 6, ⟨1920, 1080, 0, 7680, []⟩⟩]).client.adaptCalls
      = (⟨true, freshClient, 0, 0⟩ : ServiceState).client.adaptCalls + 1 :=
  C7_ratio_latched_once ⟨true, freshClient, 0, 0⟩ ⟨1, 1, ⟨640, 480, 0, 2560, []⟩⟩
    [⟨2, 6, ⟨1920, 1080, 0, 7680, []⟩⟩] rfl rfl

/-- C8: exactly the ICE transitions to disconnected, failed or closed make
the supervisor mark the session not-connected, release the peer connection,
and install a brand-new replacement client; no other event — in particular
no offer, answer, or candidate negotiation failure — changes the generation
or release counters. -/
theorem C8_rebuild_only_on_qualifying_ice (st : ServiceState) (e : ServiceEvent) :
    (e.triggersRebuild = true →
      serviceStep st e = { isConnected := false, client := freshClient,
                           generation := st.generation + 1,
                           released := st.released + 1 }) ∧
    (e.triggersRebuild = false →
      (serviceStep st e).generation = st.generation ∧
      (serviceStep st e).released = st.released) := by
  cases e with
  | iceStateChange state =>
    cases state <;>
      simp [serviceStep, ServiceEvent.triggersRebuild,
        IceConnectionState.qualifiesForRebuild]
  | signalingStateChange => simp [serviceStep, ServiceEvent.triggersRebuild]
  | iceGatheringStateChange => simp [serviceStep, ServiceEvent.triggersRebuild]
  | localCandidateDiscovered => simp [serviceStep, ServiceEvent.triggersRebuild]
  | offerFailed => simp [serviceStep, ServiceEvent.triggersRebuild]
  | setRemoteSDPFailed => simp [serviceStep, ServiceEvent.triggersRebuild]
  | addRemoteCandidateFailed => simp [serviceStep, ServiceEvent.triggersRebuild]

/-- Witness for C8: a failed ICE state rebuilds, an offer failure does not. -/
theorem C8_rebuild_only_on_qualifying_ice_witness :
    serviceStep ⟨true, freshClient, 0, 0⟩ (.iceStateChange .failed)
      = { isConnected := false, client := freshClient,
          generation := (⟨true, freshClient, 0, 0⟩ : ServiceState).generation + 1,
          released := (⟨true, freshClient, 0, 0⟩ : ServiceState).released + 1 } ∧
    (serviceStep ⟨true, freshClient, 0, 0⟩ .offerFailed).generation
      = (⟨true, freshClient, 0, 0⟩ : ServiceState).generation ∧
    (serviceStep ⟨true, freshClient, 0, 0⟩ .offerFailed).released
      = (⟨true, freshClient, 0, 0⟩ : ServiceState).released :=
  ⟨(C8_rebuild_only_on_qualifying_ice ⟨true, freshClient, 0, 0⟩
      (.iceStateChange .failed)).1 rfl,
   (C8_rebuild_only_on_qualifying_ice ⟨true, freshClient, 0, 0⟩ .offerFailed).2 rfl⟩

/-- C9: on a watchdog tick with the stop-request flag set, the broadcast is
finished gracefully, the flag is cleared and the timer cancelled; with the
flag clear, nothing terminates — even a stale heartbeat (detected exactly
when the last beat is positive and more than 3 seconds old) only reaches
the diagnostic branch. -/
theorem C9_watchdog_tick (shared : SharedDefaults) (now : Int) :
    (shared.stopBroadcast = true →
      (watchdogTick shared now).finishedGracefully = true ∧
      (watchdogTick shared now).sharedAfter.stopBroadcast = false ∧
      (watchdogTick shared now).timerCancelled = true) ∧
    (shared.stopBroadcast = false →
      (watchdogTick shared now).finishedGracefully = false ∧
      (watchdogTick shared now).timerCancelled = false ∧
      (watchdogTick shared now).sharedAfter = shared ∧
      ((watchdogTick shared now).staleDetected = true ↔
        0 < shared.mainAppHeartBeat ∧ 3 < now - shared.mainAppHeartBeat)) := by
  by_cases h : shared.stopBroadcast <;> simp [watchdogTick, h]

/-- Witness for C9: a set stop flag finishes the broadcast; a clear flag
with a stale heartbeat does not. -/
theorem C9_watchdog_tick_witness :
    ((watchdogTick ⟨true, 0⟩ 100).finishedGracefully = true ∧
      (watchdogTick ⟨true, 0⟩ 100).sharedAfter.stopBroadcast = false ∧
      (watchdogTick ⟨true, 0⟩ 100).timerCancelled = true) ∧
    ((watchdogTick ⟨false, 10⟩ 100).finishedGracefully = false ∧
      (watchdogTick ⟨false, 10⟩ 100).timerCancelled = false ∧
      (watchdogTick ⟨false, 10⟩ 100).sharedAfter = (⟨false, 10⟩ : SharedDefaults) ∧
      ((watchdogTick ⟨false, 10⟩ 100).staleDetected = true ↔
        0 < (⟨false, 10⟩ : SharedDefaults).mainAppHeartBeat ∧
          3 < 100 - (⟨false, 10⟩ : SharedDefaults).mainAppHeartBeat)) :=
  ⟨(C9_watchdog_tick ⟨true, 0⟩ 100).1 rfl, (C9_watchdog_tick ⟨false, 10⟩ 100).2 rfl⟩

/-- C10: a mailbox write with a negative offset, or whose end would exceed
the fixed 20 MiB capacity, returns false and leaves the region completely
unchanged; in particular a serialized frame larger than the capacity is
rejected whole, never partially written. -/
theorem C10_write_bounds_rejected (region : List Nat)
    (hreg : region.length = ipcCapacity) :
    (∀ (data : List Nat) (offset : Int),
      offset < 0 ∨ (ipcCapacity : Int) < offset + data.length →
      IPCFileManager.write region data offset = (false, region)) ∧
    (∀ (pb : PixelBuffer) (o : Nat) (t : Int) (c : Nat),
      ipcCapacity < 43 + pb.data.length →
      IPCCurrentVideoFrame.set region (serializePixelBufferFull pb o t c)
        = (false, region)) := by
  have hgen : ∀ (data : List Nat) (offset : Int),
      offset < 0 ∨ (ipcCapacity : Int) < offset + data.length →
      IPCFileManager.write region data offset = (false, region) := by
    intro data offset h
    unfold IPCFileManager.write
    rw [if_neg]
    rintro ⟨h1, h2⟩
    rw [hreg] at h2
    omega
  refine ⟨hgen, ?_⟩
  intro pb o t c h
  have hfrlen : (serializePixelBufferFull pb o t c).length = 43 + pb.data.length := by
    simp [serializePixelBufferFull, PixelHeader.encode_length, le32, kPrefixBytes]
    omega
  unfold IPCCurrentVideoFrame.set
  apply hgen
  right
  rw [hfrlen]
  push_cast
  omega

/-- Witness for C10: a negative offset and an oversized frame are both
rejected on a zeroed 20 MiB region. -/
theorem C10_write_bounds_rejected_witness :
    IPCFileManager.write (List.replicate ipcCapacity 0) [1, 2, 3] (-1)
      = (false, List.replicate ipcCapacity 0) ∧
    IPCCurrentVideoFrame.set (List.replicate ipcCapacity 0)
      (serializePixelBufferFull ⟨1, 1, 0, 0, List.replicate ipcCapacity 0⟩ 1 0 7)
      = (false, List.replicate ipcCapacity 0) :=
  ⟨(C10_write_bounds_rejected (List.replicate ipcCapacity 0)
      (by rw [List.length_replicate])).1
      [1, 2, 3] (-1) (Or.inl (by norm_num)),
   (C10_write_bounds_rejected (List.replicate ipcCapacity 0)
      (by rw [List.length_replicate])).2
      ⟨1, 1, 0, 0, List.replicate ipcCapacity 0⟩ 1 0 7
      (by
        have h : ((⟨1, 1, 0, 0, List.replicate ipcCapacity 0⟩ : PixelBuffer)).data.length
            = ipcCapacity := List.length_replicate _ _
        omega)⟩
